import Mathlib

/-!
Verification development for the ImageForge batch image generation core:
the delimited-text parser (`parseDelimitedText`, `parseCsv`), the prompt
synthesizer (`formatRowData` and the full-prompt construction), the
per-request AI client selection and error translation of
`selectAiModelFlow`, and the sequential batch orchestration loop of
`onSubmit`.  All definitions are shallow embeddings of the TypeScript
source; strings are modelled by Lean strings with the JavaScript string
operations re-implemented over their character lists.
-/

deriving instance DecidableEq for Except

namespace ImageForge

/-- Whitespace as removed by JavaScript `String.prototype.trim`, restricted to
the ASCII whitespace characters that occur in the data this program handles. -/
def wsB (c : Char) : Bool := c = ' ' || c = '\t' || c = '\n' || c = '\r'

/-- Trimming on character lists: drop leading and trailing whitespace. -/
def trimL (l : List Char) : List Char :=
  ((l.dropWhile wsB).reverse.dropWhile wsB).reverse

/-- Embedding of JavaScript `s.trim()`. -/
def trimS (s : String) : String := ⟨trimL s.data⟩

/-- Embedding of `s.replace(/\r\n?/g, '\n')` on character lists: a CRLF pair
collapses to a single LF and a lone CR becomes LF. -/
def normNL : List Char → List Char
  | [] => []
  | [c] => if c = '\r' then ['\n'] else [c]
  | c1 :: c2 :: rest =>
    if c1 = '\r' then
      if c2 = '\n' then '\n' :: normNL rest
      else '\n' :: normNL (c2 :: rest)
    else c1 :: normNL (c2 :: rest)

/-- Embedding of `s.replace(/\r\n?/g, '\n')`. -/
def normNLs (s : String) : String := ⟨normNL s.data⟩

/-- Embedding of JavaScript `s.split(sep)` for a one-character separator on
character lists; splitting the empty list yields `[[]]` and the result is
never empty. -/
def splitChL (sep : Char) : List Char → List (List Char)
  | [] => [[]]
  | c :: rest =>
    if c = sep then [] :: splitChL sep rest
    else
      match splitChL sep rest with
      | [] => [[c]]
      | p :: ps => (c :: p) :: ps

/-- Embedding of JavaScript `s.split(sep)` for a one-character separator. -/
def splitCh (sep : Char) (s : String) : List String :=
  (splitChL sep s.data).map String.mk

/-- Decimal rendering of a natural number, as JavaScript template literals
render the loop counter and column counts. -/
def natToS (n : Nat) : String := ⟨Nat.toDigits 10 n⟩

/-- Check whether the pattern `pat` is an initial segment of `l`. -/
def startsWithL : List Char → List Char → Bool
  | [], _ => true
  | _ :: _, [] => false
  | p :: ps, c :: cs => p == c && startsWithL ps cs

/-- Substring search on character lists, pattern first. -/
def hasSubL (pat : List Char) : List Char → Bool
  | [] => startsWithL pat []
  | c :: cs => startsWithL pat (c :: cs) || hasSubL pat cs

/-- Embedding of JavaScript `s.includes(pat)`. -/
def hasSub (s pat : String) : Bool := hasSubL pat.data s.data

/-! ## The delimited-text parser (`parseDelimitedText`) -/

/-- The two delimiters the parser accepts, `","` and `"\t"` in the source. -/
inductive Delim
  | comma
  | tab
deriving DecidableEq

/-- The delimiter character. -/
def Delim.ch : Delim → Char
  | .comma => ','
  | .tab => '\t'

/-- The file-type word interpolated into error messages:
`delimiter === ',' ? 'CSV' : 'TSV'`. -/
def Delim.fileWord : Delim → String
  | .comma => "CSV"
  | .tab => "TSV"

/-- A parsed row: the insertion-ordered key/value pairs of the JavaScript
object built for one data line. -/
abbrev Row := List (String × String)

/-- JavaScript object property assignment `obj[k] = v`: overwrite in place
when the key is present, append otherwise. -/
def setKey (row : Row) (k v : String) : Row :=
  if row.any (fun p => p.1 == k) then
    row.map (fun p => if p.1 == k then (k, v) else p)
  else row ++ [(k, v)]

/-- Canonical decimal digit strings: a single digit, or a non-zero digit
followed by digits (no leading zero). -/
def isCanonicalDigits : List Char → Bool
  | [] => false
  | [c] => c.isDigit
  | c :: rest => c.isDigit && !(c == '0') && rest.all (fun d => d.isDigit)

/-- The numeric value of a digit string. -/
def digitsVal (l : List Char) : Nat :=
  l.foldl (fun n c => n * 10 + (c.toNat - '0'.toNat)) 0

/-- JavaScript array-index property keys: canonical digit strings whose value
is below `2^32 - 1`.  Such keys are enumerated before all other string keys,
in ascending numeric order. -/
def isArrayIndexKey (s : String) : Bool :=
  isCanonicalDigits s.data && decide (digitsVal s.data < 4294967295)

/-- Insert an entry into a list sorted by ascending numeric key value. -/
def insertAscVal (p : String × String) : Row → Row
  | [] => [p]
  | q :: rest =>
    if digitsVal p.1.data < digitsVal q.1.data then p :: q :: rest
    else q :: insertAscVal p rest

/-- Insertion sort by ascending numeric key value. -/
def sortAscVal : Row → Row
  | [] => []
  | p :: rest => insertAscVal p (sortAscVal rest)

/-- JavaScript own-property enumeration order, as observed by
`Object.entries` and `Object.keys`: array-index keys first in ascending
numeric order, then the remaining string keys in insertion order. -/
def jsEntries (row : Row) : Row :=
  sortAscVal (row.filter (fun p => isArrayIndexKey p.1)) ++
    row.filter (fun p => !isArrayIndexKey p.1)

/-- Embedding of the row-object construction
`headers.forEach((header, index) => rowObject[header] = values[index])`
starting from the empty object: assignments keep the position of an existing
key (later duplicates overwrite in place), and the resulting record lists the
object's entries in JavaScript enumeration order. -/
def mkRow (headers values : List String) : Row :=
  jsEntries ((headers.zip values).foldl (fun r kv => setKey r kv.1 kv.2) [])

def emptyInputMsgD : String := "Input data cannot be empty."

def headerRowMsgD : String := "Input data must have at least a header row."

def emptyTrimMsgD : String := "Input data cannot be empty after trimming."

def missingDataRowsMsgD : String :=
  "Input data must have at least one data row after the header."

def emptyHeaderMsgD (d : Delim) : String :=
  "Headers cannot be empty. Please check your " ++ d.fileWord ++ " file."

def mismatchMsgD (d : Delim) (rowNum observed expected : Nat) : String :=
  "Row " ++ natToS rowNum ++ " (1-indexed) has " ++ natToS observed ++
    " columns, but header has " ++ natToS expected ++
    ". Please ensure consistent column counts in your " ++ d.fileWord ++ " file."

def noValidRowsMsgD (d : Delim) : String :=
  "No valid data rows found after parsing headers in your " ++ d.fileWord ++ " file."

/-- The data-line loop of `parseDelimitedText`: `i` is the index of the first
line of `ls` within the whole (trimmed, normalized) line array. -/
def rowsLoopD (d : Delim) (headers : List String) :
    List String → Nat → Except String (List Row)
  | [], _ => .ok []
  | line :: rest, i =>
    if trimS line = "" then rowsLoopD d headers rest (i + 1)
    else
      let values := (splitCh d.ch line).map trimS
      if values.length ≠ headers.length then
        .error (mismatchMsgD d (i + 1) values.length headers.length)
      else
        (rowsLoopD d headers rest (i + 1)).map (fun tl => mkRow headers values :: tl)

/-- Embedding of `text.trim().replace(/\r\n?/g, '\n').split('\n')`: the line
array both parsers work on. -/
def parseLines (text : String) : List String :=
  splitCh '\n' (normNLs (trimS text))

/-- The trimmed header fields of a header line. -/
def headersOf (d : Delim) (line : String) : List String :=
  (splitCh d.ch line).map trimS

/-- The tail of both parsers: propagate a loop error, and turn an empty row
list into the no-valid-rows error when more than one line was present. -/
def finishParse (noValidMsg : String) (lines : List String)
    (r : Except String (List Row)) : Except String (List Row) :=
  match r with
  | .error e => .error e
  | .ok data =>
    if data.length = 0 ∧ lines.length > 1 then .error noValidMsg else .ok data

/-- Embedding of `parseDelimitedText(text, delimiter)` from the source:
trim the input, normalize line endings, split into lines, validate the
header, then run the data-line loop. -/
def parseDelimitedText (text : String) (d : Delim) : Except String (List Row) :=
  if trimS text = "" then .error emptyInputMsgD
  else if (parseLines text).length < 1 then .error headerRowMsgD
  else if (parseLines text).length = 1 ∧ trimS ((parseLines text).headD "") = "" then
    .error emptyTrimMsgD
  else if (parseLines text).length < 2 ∧ trimS ((parseLines text).headD "") ≠ "" then
    .error missingDataRowsMsgD
  else if (headersOf d ((parseLines text).headD "")).any (fun h => h == "") then
    .error (emptyHeaderMsgD d)
  else
    finishParse (noValidRowsMsgD d) (parseLines text)
      (rowsLoopD d (headersOf d ((parseLines text).headD "")) ((parseLines text).drop 1) 1)

/-! ## The legacy comma-only parser (`parseCsv`) -/

def emptyInputMsgC : String := "CSV data cannot be empty."

def headerRowMsgC : String := "CSV data must have at least a header row."

def emptyTrimMsgC : String := "CSV data cannot be empty after trimming."

def missingDataRowsMsgC : String :=
  "CSV data must have at least one data row after the header."

def emptyHeaderMsgC : String := "CSV headers cannot be empty."

def mismatchMsgC (rowNum observed expected : Nat) : String :=
  "Row " ++ natToS rowNum ++ " (1-indexed) has " ++ natToS observed ++
    " columns, but header has " ++ natToS expected ++
    ". Please ensure consistent column counts."

def noValidRowsMsgC : String := "No valid data rows found after parsing headers."

/-- The data-line loop of `parseCsv`. -/
def rowsLoopC (headers : List String) : List String → Nat → Except String (List Row)
  | [], _ => .ok []
  | line :: rest, i =>
    if trimS line = "" then rowsLoopC headers rest (i + 1)
    else
      let values := (splitCh ',' line).map trimS
      if values.length ≠ headers.length then
        .error (mismatchMsgC (i + 1) values.length headers.length)
      else
        (rowsLoopC headers rest (i + 1)).map (fun tl => mkRow headers values :: tl)

/-- Embedding of `parseCsv(csvText)` from `src/lib/csvParser.ts`. -/
def parseCsv (csvText : String) : Except String (List Row) :=
  if trimS csvText = "" then .error emptyInputMsgC
  else if (parseLines csvText).length < 1 then .error headerRowMsgC
  else if (parseLines csvText).length = 1 ∧ trimS ((parseLines csvText).headD "") = "" then
    .error emptyTrimMsgC
  else if (parseLines csvText).length < 2 ∧ trimS ((parseLines csvText).headD "") ≠ "" then
    .error missingDataRowsMsgC
  else if (((splitCh ',' ((parseLines csvText).headD "")).map trimS).any (fun h => h == "")) then
    .error emptyHeaderMsgC
  else
    finishParse noValidRowsMsgC (parseLines csvText)
      (rowsLoopC ((splitCh ',' ((parseLines csvText).headD "")).map trimS)
        ((parseLines csvText).drop 1) 1)

/-! ## The prompt synthesizer (`formatRowData` and the full prompt) -/

/-- JavaScript `\w`: ASCII letters, digits and underscore. -/
def wordCharB (c : Char) : Bool := c.isAlphanum || c = '_'

/-- Embedding of `key.replace(/_/g, ' ')`. -/
def underscoreToSpace (l : List Char) : List Char :=
  l.map (fun c => if c = '_' then ' ' else c)

/-- Embedding of `s.replace(/\b\w/g, l => l.toUpperCase())`: uppercase every word character
that is not preceded by a word character.  The boolean argument records
whether the previous character was a word character. -/
def capWordStarts : Bool → List Char → List Char
  | _, [] => []
  | prevWord, c :: rest =>
    (if wordCharB c && !prevWord then c.toUpper else c) :: capWordStarts (wordCharB c) rest

/-- The column-name transformation of `formatRowData`: underscores become
spaces, then the first letter of each word is capitalized. -/
def humanizeKey (k : String) : String :=
  ⟨capWordStarts false (underscoreToSpace k.data)⟩

/-- One bullet line of the formatted block. -/
def bulletLine (kv : String × String) : String :=
  "- **" ++ humanizeKey kv.1 ++ "**: " ++ kv.2

/-- JavaScript `Array.prototype.join('\n')`. -/
def joinNL : List String → String
  | [] => ""
  | [s] => s
  | s :: s2 :: rest => s ++ "\n" ++ joinNL (s2 :: rest)

/-- Embedding of `formatRowData(row)`: one bullet line per column, in row
order, joined with newlines. -/
def formatRowData (row : Row) : String := joinNL (row.map bulletLine)

/-- The full prompt built in the loop body of `onSubmit`:
`` `${data.startPrompt}\n${formattedRowData}\n${data.endPrompt}`.trim() ``. -/
def synthesizePrompt (startPrompt : String) (row : Row) (endPrompt : String) : String :=
  trimS (startPrompt ++ "\n" ++ formatRowData row ++ "\n" ++ endPrompt)

/-! ## `selectAiModelFlow`: client selection and error translation -/

/-- The request data the orchestrator hands to `selectAiModel` for one row. -/
structure GenRequest where
  prompt : String
  apiKey : String
  referenceImageDataUri : Option String
deriving DecidableEq

/-- Which Genkit client the flow uses for one generation call. -/
inductive ClientChoice
  | dynamic (key : String)
  | global
deriving DecidableEq

/-- The condition `input.apiKey && input.apiKey.trim() !== ""` selects the dynamically
configured client, otherwise the server-configured global client is used. -/
def resolveClient (apiKey : String) : ClientChoice :=
  if apiKey ≠ "" ∧ trimS apiKey ≠ "" then .dynamic apiKey else .global

def invalidKeyMsg : String :=
  "The provided API key is not valid or is missing. Please check it and try again. For server-configured keys, ensure it\x27s set correctly in the environment."

def quotaMsg : String :=
  "API quota exceeded or a billing issue occurred. Please check your Google AI account status and billing settings."

def permissionMsg : String :=
  "Permission denied. The API key may not have the necessary permissions for the Gemini API, or the API may not be enabled in your Google Cloud project."

def safetyMsg : String :=
  "Image generation was blocked, likely due to safety filters. Please revise your prompt and/or reference image."

def refImageMsg : String :=
  "The reference image might be invalid or in an unsupported format. Please try a different image."

def genericMsg : String := "An unexpected error occurred during image generation."

def noImageMsg : String :=
  "The AI service did not return an image. This could be due to safety filters, an issue with the prompt, or an internal service error."

/-- The catch block of `selectAiModelFlow`: translate the raw error message of
the generation call into the user-facing message.  An absent (empty) message
keeps the generic default. -/
def translateError (raw : String) : String :=
  if raw = "" then genericMsg
  else if hasSub raw "API key not valid" || hasSub raw "API_KEY_INVALID" then invalidKeyMsg
  else if hasSub raw "quotaExceeded" || hasSub raw "billing account" then quotaMsg
  else if hasSub raw "permission denied" || hasSub raw "IAM" then permissionMsg
  else if hasSub raw "SAFETY" || hasSub raw "blocked" then safetyMsg
  else if hasSub raw "Invalid content" || hasSub raw "image format" then refImageMsg
  else if raw.length < 250 then raw
  else genericMsg

/-- The flow's output on success: the generated image URL and the text prompt
as alt text. -/
structure GenOutput where
  imageUrl : String
  altText : String
deriving DecidableEq

/-- One call of `selectAiModelFlow`, with the external generation capability
abstracted as its raw result: an error message, or media whose `url` may be
missing.  A missing URL raises the no-image error inside the `try`, so it is
translated like any other failure. -/
def selectAiModelM (input : GenRequest) (raw : Except String (Option String)) :
    Except String GenOutput :=
  match raw with
  | .ok (some url) => .ok ⟨url, input.prompt⟩
  | .ok none => .error (translateError noImageMsg)
  | .error e => .error (translateError e)

/-! ## The batch orchestration loop of `onSubmit` -/

/-- The run configuration captured once from the submitted form data. -/
structure RunConfig where
  startPrompt : String
  endPrompt : String
  apiKey : String
  referenceImageDataUri : Option String
  delaySeconds : Nat

/-- The request built for one row: the synthesized prompt plus the run's
shared API key and reference image. -/
def buildRequest (cfg : RunConfig) (row : Row) : GenRequest :=
  { prompt := synthesizePrompt cfg.startPrompt row cfg.endPrompt
    apiKey := cfg.apiKey
    referenceImageDataUri := cfg.referenceImageDataUri }

/-- The caller-observable events of one run: the progress message before each
dispatch, the per-row outcome (a stored image or a row-error toast, with the
1-based row number), and the inter-request pause. -/
inductive Event
  | progress (current total : Nat)
  | dispatched (rowIndex : Nat) (req : GenRequest)
  | success (rowIndex : Nat) (req : GenRequest) (imageUrl : String)
  | failure (rowIndex : Nat) (message : String)
  | pause (seconds : Nat)
deriving DecidableEq

/-- The outcome event row `i` (0-based) produces: a stored image on success,
a row-error toast on failure. -/
def outcomeOf (cfg : RunConfig) (oracle : Nat → Except String (Option String))
    (i : Nat) (row : Row) : Event :=
  match selectAiModelM (buildRequest cfg row) (oracle i) with
  | .ok out => Event.success (i + 1) (buildRequest cfg row) out.imageUrl
  | .error msg => Event.failure (i + 1) msg

/-- The events of one iteration of the generation loop: progress, the call to
`selectAiModel` with the row's request, then the outcome of the dispatch, then
the pause when a positive delay is configured and this is not the last row. -/
def rowEvents (cfg : RunConfig) (oracle : Nat → Except String (Option String))
    (total i : Nat) (row : Row) : List Event :=
  [Event.progress (i + 1) total, Event.dispatched (i + 1) (buildRequest cfg row),
    outcomeOf cfg oracle i row] ++
    (if cfg.delaySeconds > 0 ∧ i < total - 1 then [Event.pause cfg.delaySeconds] else [])

/-- The `for (let i = 0; i < rows.length; i++)` loop: rows are dispatched
sequentially and a failed dispatch never stops the loop. -/
def runLoop (cfg : RunConfig) (oracle : Nat → Except String (Option String))
    (total : Nat) : Nat → List Row → List Event
  | _, [] => []
  | i, row :: rest => rowEvents cfg oracle total i row ++ runLoop cfg oracle total (i + 1) rest

/-- One orchestration run over an already-parsed row list. -/
def runBatch (cfg : RunConfig) (rows : List Row)
    (oracle : Nat → Except String (Option String)) : List Event :=
  runLoop cfg oracle rows.length 0 rows

def isOutcomeEv : Event → Bool
  | .progress _ _ => false
  | .dispatched _ _ => false
  | .success _ _ _ => true
  | .failure _ _ => true
  | .pause _ => false

def isSuccessEv : Event → Bool
  | .progress _ _ => false
  | .dispatched _ _ => false
  | .success _ _ _ => true
  | .failure _ _ => false
  | .pause _ => false

def isFailureEv : Event → Bool
  | .progress _ _ => false
  | .dispatched _ _ => false
  | .success _ _ _ => false
  | .failure _ _ => true
  | .pause _ => false

def isPauseEv : Event → Bool
  | .progress _ _ => false
  | .dispatched _ _ => false
  | .success _ _ _ => false
  | .failure _ _ => false
  | .pause _ => true

/-- The per-row outcomes of a run, in emission order. -/
def outcomes (evs : List Event) : List Event := evs.filter isOutcomeEv

/-- The 1-based row number an outcome event reports. -/
def outcomeIndex : Event → Nat
  | .progress _ _ => 0
  | .dispatched _ _ => 0
  | .success i _ _ => i
  | .failure i _ => i
  | .pause _ => 0

/-- The request a dispatch event carries. -/
def reqOfEvent : Event → Option GenRequest
  | .progress _ _ => none
  | .dispatched _ req => some req
  | .success _ _ _ => none
  | .failure _ _ => none
  | .pause _ => none

/-- The requests dispatched during a run, in dispatch order. -/
def requestsOf (evs : List Event) : List GenRequest := evs.filterMap reqOfEvent

/-- The post-loop summary: how many rows succeeded and how many failed. -/
structure BatchSummary where
  successes : Nat
  failures : Nat
deriving DecidableEq

def summaryOf (evs : List Event) : BatchSummary :=
  ⟨(evs.filter isSuccessEv).length, (evs.filter isFailureEv).length⟩

/-- The parse-then-check stage of `onSubmit`: a parse error aborts, a
successful parse with zero rows would report "no rows to process", and
otherwise the run proceeds with the parsed rows. -/
inductive SubmitStage
  | parseFailed (msg : String)
  | noRows
  | running (rows : List Row)
deriving DecidableEq

def submitParse (text : String) (d : Delim) : SubmitStage :=
  match parseDelimitedText text d with
  | .error e => .parseFailed e
  | .ok rows => if rows.length = 0 then .noRows else .running rows

/-- The outcome list the loop is expected to emit, one per row of `ls`,
starting at 0-based row index `i`. -/
def expectedOutcomes (cfg : RunConfig) (oracle : Nat → Except String (Option String)) :
    Nat → List Row → List Event
  | _, [] => []
  | i, row :: rest => outcomeOf cfg oracle i row :: expectedOutcomes cfg oracle (i + 1) rest

/-- Whether the optional previous event is an outcome event. -/
def prevIsOutcome : Option Event → Bool
  | some p => isOutcomeEv p
  | none => false

/-- Predicate that fails exactly when `e` is a pause that is not
immediately preceded by an outcome event. -/
def prevOutcomeOk (prev : Option Event) (e : Event) : Bool :=
  !isPauseEv e || prevIsOutcome prev

/-- Every pause in the event list is immediately preceded by an outcome
event (`prev` is the event just before the list, if any). -/
def pausesFollowOutcomes : Option Event → List Event → Bool
  | _, [] => true
  | prev, e :: rest => prevOutcomeOk prev e && pausesFollowOutcomes (some e) rest

/-- Capitalize a character paired with its predecessor: uppercase exactly the
word characters whose predecessor is not a word character. -/
def capPair (pc : Char × Char) : Char :=
  if wordCharB pc.1 && !wordCharB pc.2 then pc.1.toUpper else pc.1

/-- Two parse results agree up to error-message wording: both succeed with
identical rows, or both fail. -/
def sameOutcome (a b : Except String (List Row)) : Prop :=
  match a, b with
  | .ok x, .ok y => x = y
  | .error _, .error _ => True
  | _, _ => False

/-! ## Concrete instances used by example conjuncts and witnesses -/

/-- A minimal run configuration for the end-to-end scenario. -/
def cfgEx : RunConfig :=
  { startPrompt := "S", endPrompt := "E", apiKey := "", referenceImageDataUri := none,
    delaySeconds := 0 }

/-- A three-row parsed table. -/
def rowsEx : List Row := [[("a", "1")], [("a", "2")], [("a", "3")]]

/-- A generation capability that fails on the second row (0-based index 1)
and succeeds on the others. -/
def oracleEx : Nat → Except String (Option String) :=
  fun i => if i = 1 then .error "boom" else .ok (some "img")

/-- A configuration with a positive inter-request delay. -/
def cfgDelay : RunConfig :=
  { startPrompt := "S", endPrompt := "E", apiKey := "", referenceImageDataUri := none,
    delaySeconds := 2 }

/-- A configuration with a user-supplied API key. -/
def cfgKey : RunConfig :=
  { startPrompt := "S", endPrompt := "E", apiKey := "user-key", referenceImageDataUri := none,
    delaySeconds := 0 }

/-! ## Lemmas about the orchestration loop -/

@[simp] theorem isOutcomeEv_progress (c t : Nat) : isOutcomeEv (.progress c t) = false := rfl

@[simp] theorem isOutcomeEv_dispatched (i : Nat) (r : GenRequest) :
    isOutcomeEv (.dispatched i r) = false := rfl

@[simp] theorem isOutcomeEv_success (i : Nat) (r : GenRequest) (u : String) :
    isOutcomeEv (.success i r u) = true := rfl

@[simp] theorem isOutcomeEv_failure (i : Nat) (m : String) :
    isOutcomeEv (.failure i m) = true := rfl

@[simp] theorem isOutcomeEv_pause (s : Nat) : isOutcomeEv (.pause s) = false := rfl

@[simp] theorem isSuccessEv_progress (c t : Nat) : isSuccessEv (.progress c t) = false := rfl

@[simp] theorem isSuccessEv_dispatched (i : Nat) (r : GenRequest) :
    isSuccessEv (.dispatched i r) = false := rfl

@[simp] theorem isSuccessEv_success (i : Nat) (r : GenRequest) (u : String) :
    isSuccessEv (.success i r u) = true := rfl

@[simp] theorem isSuccessEv_failure (i : Nat) (m : String) :
    isSuccessEv (.failure i m) = false := rfl

@[simp] theorem isSuccessEv_pause (s : Nat) : isSuccessEv (.pause s) = false := rfl

@[simp] theorem isFailureEv_progress (c t : Nat) : isFailureEv (.progress c t) = false := rfl

@[simp] theorem isFailureEv_dispatched (i : Nat) (r : GenRequest) :
    isFailureEv (.dispatched i r) = false := rfl

@[simp] theorem isFailureEv_success (i : Nat) (r : GenRequest) (u : String) :
    isFailureEv (.success i r u) = false := rfl

@[simp] theorem isFailureEv_failure (i : Nat) (m : String) :
    isFailureEv (.failure i m) = true := rfl

@[simp] theorem isFailureEv_pause (s : Nat) : isFailureEv (.pause s) = false := rfl

@[simp] theorem isPauseEv_progress (c t : Nat) : isPauseEv (.progress c t) = false := rfl

@[simp] theorem isPauseEv_dispatched (i : Nat) (r : GenRequest) :
    isPauseEv (.dispatched i r) = false := rfl

@[simp] theorem isPauseEv_success (i : Nat) (r : GenRequest) (u : String) :
    isPauseEv (.success i r u) = false := rfl

@[simp] theorem isPauseEv_failure (i : Nat) (m : String) :
    isPauseEv (.failure i m) = false := rfl

@[simp] theorem isPauseEv_pause (s : Nat) : isPauseEv (.pause s) = true := rfl

@[simp] theorem reqOfEvent_progress (c t : Nat) : reqOfEvent (.progress c t) = none := rfl

@[simp] theorem reqOfEvent_dispatched (i : Nat) (r : GenRequest) :
    reqOfEvent (.dispatched i r) = some r := rfl

@[simp] theorem reqOfEvent_success (i : Nat) (r : GenRequest) (u : String) :
    reqOfEvent (.success i r u) = none := rfl

@[simp] theorem reqOfEvent_failure (i : Nat) (m : String) : reqOfEvent (.failure i m) = none := rfl

@[simp] theorem reqOfEvent_pause (s : Nat) : reqOfEvent (.pause s) = none := rfl

@[simp] theorem isOutcomeEv_outcomeOf (cfg : RunConfig)
    (oracle : Nat → Except String (Option String))
    (i : Nat) (row : Row) : isOutcomeEv (outcomeOf cfg oracle i row) = true := by
  unfold outcomeOf
  split <;> rfl

@[simp] theorem isPauseEv_outcomeOf (cfg : RunConfig)
    (oracle : Nat → Except String (Option String))
    (i : Nat) (row : Row) : isPauseEv (outcomeOf cfg oracle i row) = false := by
  unfold outcomeOf
  split <;> rfl

@[simp] theorem reqOfEvent_outcomeOf (cfg : RunConfig)
    (oracle : Nat → Except String (Option String))
    (i : Nat) (row : Row) : reqOfEvent (outcomeOf cfg oracle i row) = none := by
  unfold outcomeOf
  split <;> rfl

theorem outcomeIndex_outcomeOf (cfg : RunConfig) (oracle : Nat → Except String (Option String))
    (i : Nat) (row : Row) : outcomeIndex (outcomeOf cfg oracle i row) = i + 1 := by
  unfold outcomeOf
  split <;> rfl


theorem outcomes_rowEvents (cfg : RunConfig) (oracle : Nat → Except String (Option String))
    (total i : Nat) (row : Row) :
    outcomes (rowEvents cfg oracle total i row) = [outcomeOf cfg oracle i row] := by
  unfold outcomes rowEvents
  by_cases h : cfg.delaySeconds > 0 ∧ i < total - 1 <;> simp [h]

theorem outcomes_runLoop (cfg : RunConfig) (oracle : Nat → Except String (Option String))
    (total : Nat) : ∀ (ls : List Row) (i : Nat),
    outcomes (runLoop cfg oracle total i ls) = expectedOutcomes cfg oracle i ls := by
  intro ls
  induction ls with
  | nil => intro i; rfl
  | cons row rest ih =>
    intro i
    unfold runLoop expectedOutcomes
    rw [outcomes, List.filter_append, ← outcomes, ← outcomes, outcomes_rowEvents, ih]
    rfl

theorem expectedOutcomes_length (cfg : RunConfig) (oracle : Nat → Except String (Option String)) :
    ∀ (ls : List Row) (i : Nat), (expectedOutcomes cfg oracle i ls).length = ls.length := by
  intro ls
  induction ls with
  | nil => intro i; rfl
  | cons row rest ih => intro i; unfold expectedOutcomes; simp [ih]

theorem expectedOutcomes_indices (cfg : RunConfig) (oracle : Nat → Except String (Option String)) :
    ∀ (ls : List Row) (i : Nat),
    (expectedOutcomes cfg oracle i ls).map outcomeIndex = List.range' (i + 1) ls.length := by
  intro ls
  induction ls with
  | nil => intro i; rfl
  | cons row rest ih =>
    intro i
    unfold expectedOutcomes
    simp [List.range'_succ, outcomeIndex_outcomeOf, ih]

theorem expectedOutcomes_getQ (cfg : RunConfig)
    (oracle : Nat → Except String (Option String)) :
    ∀ (ls : List Row) (i k : Nat) (row : Row), ls.get? k = some row →
    (expectedOutcomes cfg oracle i ls).get? k = some (outcomeOf cfg oracle (i + k) row) := by
  intro ls
  induction ls with
  | nil => intro i k row h; simp at h
  | cons r rest ih =>
    intro i k row h
    cases k with
    | zero =>
      simp only [List.get?_cons_zero, Option.some.injEq] at h
      subst h
      rfl
    | succ k =>
      simp only [List.get?_cons_succ] at h
      unfold expectedOutcomes
      rw [List.get?_cons_succ, ih (i + 1) k row h]
      have harith : i + 1 + k = i + (k + 1) := by omega
      rw [harith]

theorem requestsOf_rowEvents (cfg : RunConfig) (oracle : Nat → Except String (Option String))
    (total i : Nat) (row : Row) :
    requestsOf (rowEvents cfg oracle total i row) = [buildRequest cfg row] := by
  unfold requestsOf rowEvents
  by_cases h : cfg.delaySeconds > 0 ∧ i < total - 1 <;> simp [h]

theorem requestsOf_runLoop (cfg : RunConfig) (oracle : Nat → Except String (Option String))
    (total : Nat) : ∀ (ls : List Row) (i : Nat),
    requestsOf (runLoop cfg oracle total i ls) = ls.map (buildRequest cfg) := by
  intro ls
  induction ls with
  | nil => intro i; rfl
  | cons row rest ih =>
    intro i
    unfold runLoop
    rw [requestsOf, List.filterMap_append, ← requestsOf, ← requestsOf,
      requestsOf_rowEvents, ih]
    rfl

theorem pauses_rowEvents (cfg : RunConfig) (oracle : Nat → Except String (Option String))
    (total i : Nat) (row : Row) :
    (rowEvents cfg oracle total i row).filter isPauseEv =
      if cfg.delaySeconds > 0 ∧ i < total - 1 then [Event.pause cfg.delaySeconds] else [] := by
  unfold rowEvents
  by_cases h : cfg.delaySeconds > 0 ∧ i < total - 1 <;> simp [h]

theorem pauses_runLoop (cfg : RunConfig) (oracle : Nat → Except String (Option String))
    (total : Nat) : ∀ (ls : List Row) (i : Nat), i + ls.length = total →
    (runLoop cfg oracle total i ls).filter isPauseEv =
      if 0 < cfg.delaySeconds then
        List.replicate (ls.length - 1) (Event.pause cfg.delaySeconds)
      else [] := by
  intro ls
  induction ls with
  | nil =>
    intro i h
    by_cases hd : 0 < cfg.delaySeconds <;> simp [runLoop, hd]
  | cons row rest ih =>
    intro i h
    simp only [List.length_cons] at h
    unfold runLoop
    rw [List.filter_append, pauses_rowEvents, ih (i + 1) (by omega)]
    cases rest with
    | nil =>
      have hc : ¬(cfg.delaySeconds > 0 ∧ i < total - 1) := by
        rintro ⟨-, hlt⟩
        simp only [List.length_nil] at h
        omega
      simp only [List.length_nil] at h
      by_cases hd : 0 < cfg.delaySeconds <;> simp [hc, hd, runLoop] <;> omega
    | cons r2 rest2 =>
      have hc : i < total - 1 := by simp only [List.length_cons] at h; omega
      by_cases hd : 0 < cfg.delaySeconds
      · simp [hd, hc, List.replicate_succ]
      · simp [hd, hc]

theorem runLoop_cons_ne_nil (cfg : RunConfig) (oracle : Nat → Except String (Option String))
    (total i : Nat) (row : Row) (rest : List Row) :
    runLoop cfg oracle total i (row :: rest) ≠ [] := by
  unfold runLoop rowEvents
  simp

theorem runLoop_getLast (cfg : RunConfig) (oracle : Nat → Except String (Option String))
    (total : Nat) : ∀ (ls : List Row) (i : Nat), i + ls.length = total → ls ≠ [] →
    ∃ e, (runLoop cfg oracle total i ls).getLast? = some e ∧ isOutcomeEv e = true := by
  intro ls
  induction ls with
  | nil => intro i h hne; exact absurd rfl hne
  | cons row rest ih =>
    intro i h hne
    cases rest with
    | nil =>
      refine ⟨outcomeOf cfg oracle i row, ?_, isOutcomeEv_outcomeOf ..⟩
      simp only [List.length_cons, List.length_nil] at h
      have hc : ¬(cfg.delaySeconds > 0 ∧ i < total - 1) := by
        rintro ⟨-, hlt⟩
        omega
      unfold runLoop rowEvents
      simp [hc, runLoop]
    | cons r2 rest2 =>
      obtain ⟨e, he, hoe⟩ := ih (i + 1) (by simp at h ⊢; omega) (by simp)
      refine ⟨e, ?_, hoe⟩
      unfold runLoop
      rw [List.getLast?_append_of_ne_nil _
        (runLoop_cons_ne_nil cfg oracle total (i + 1) r2 rest2)]
      exact he


theorem pausesFollowOutcomes_runLoop (cfg : RunConfig)
    (oracle : Nat → Except String (Option String)) (total : Nat) :
    ∀ (ls : List Row) (i : Nat) (prev : Option Event),
    pausesFollowOutcomes prev (runLoop cfg oracle total i ls) = true := by
  intro ls
  induction ls with
  | nil => intro i prev; rfl
  | cons row rest ih =>
    intro i prev
    unfold runLoop rowEvents
    by_cases h : cfg.delaySeconds > 0 ∧ i < total - 1 <;>
      simp [h, pausesFollowOutcomes, prevOutcomeOk, prevIsOutcome, ih]

/-! ## Lemmas about row construction and the parser loop -/

theorem rowsLoopD_first_bad (d : Delim) (headers : List String) :
    ∀ (ls : List String) (i j : Nat) (lj : String),
    ls.get? j = some lj → trimS lj ≠ "" →
    ((splitCh d.ch lj).map trimS).length ≠ headers.length →
    (∀ k, k < j → ∀ lk, ls.get? k = some lk →
      trimS lk = "" ∨ ((splitCh d.ch lk).map trimS).length = headers.length) →
    rowsLoopD d headers ls i =
      .error (mismatchMsgD d (i + j + 1) ((splitCh d.ch lj).map trimS).length
        headers.length) := by
  intro ls
  induction ls with
  | nil => intro i j lj hj; simp at hj
  | cons l0 rest ih =>
    intro i j lj hj hne hbad hfirst
    cases j with
    | zero =>
      simp only [List.get?_cons_zero, Option.some.injEq] at hj
      subst hj
      simp only [rowsLoopD]
      rw [if_neg hne, if_pos hbad]
    | succ j =>
      have h0 := hfirst 0 (Nat.succ_pos j) l0 rfl
      simp only [List.get?_cons_succ] at hj
      have hrec := ih (i + 1) j lj hj hne hbad
        (fun k hk lk hlk => hfirst (k + 1) (by omega) lk (by simpa using hlk))
      have harith : i + 1 + j + 1 = i + (j + 1) + 1 := by omega
      rw [harith] at hrec
      simp only [rowsLoopD]
      by_cases hb : trimS l0 = ""
      · rw [if_pos hb, hrec]
      · rw [if_neg hb, if_neg (by simp [h0.resolve_left hb]), hrec]
        rfl

/-! ## Word-capitalization and parser-equivalence helpers -/


theorem capWordStarts_zip : ∀ (l : List Char) (prevC : Char),
    capWordStarts (wordCharB prevC) l = (l.zip (prevC :: l)).map capPair := by
  intro l
  induction l with
  | nil => intro prevC; rfl
  | cons c rest ih =>
    intro prevC
    simp only [capWordStarts, List.zip_cons_cons, List.map_cons]
    rw [ih c]
    rfl

theorem sameOutcome_map (f : List Row → List Row) :
    ∀ (a b : Except String (List Row)), sameOutcome a b →
    sameOutcome (a.map f) (b.map f) := by
  intro a b h
  cases a <;> cases b <;> simp [sameOutcome, Except.map] at h ⊢
  exact congrArg f h

theorem sameOutcome_finishParse (m1 m2 : String) (lines : List String) :
    ∀ (a b : Except String (List Row)), sameOutcome a b →
    sameOutcome (finishParse m1 lines a) (finishParse m2 lines b) := by
  intro a b h
  cases a with
  | error e =>
    cases b with
    | error e2 => simp [finishParse, sameOutcome]
    | ok y => simp [sameOutcome] at h
  | ok x =>
    cases b with
    | error e2 => simp [sameOutcome] at h
    | ok y =>
      have hxy : x = y := h
      subst hxy
      by_cases hc : x.length = 0 ∧ lines.length > 1
      · simp only [finishParse]
        rw [if_pos hc, if_pos hc]
        trivial
      · simp only [finishParse]
        rw [if_neg hc, if_neg hc]
        rfl

theorem rowsLoop_equiv (headers : List String) : ∀ (ls : List String) (i : Nat),
    sameOutcome (rowsLoopC headers ls i) (rowsLoopD Delim.comma headers ls i) := by
  intro ls
  induction ls with
  | nil => intro i; simp [rowsLoopC, rowsLoopD, sameOutcome]
  | cons line rest ih =>
    intro i
    simp only [rowsLoopC, rowsLoopD]
    by_cases hb : trimS line = ""
    · rw [if_pos hb, if_pos hb]
      exact ih (i + 1)
    · rw [if_neg hb, if_neg hb]
      have hch : Delim.comma.ch = ',' := rfl
      rw [hch]
      by_cases hm : ((splitCh ',' line).map trimS).length ≠ headers.length
      · rw [if_pos hm, if_pos hm]
        trivial
      · rw [if_neg hm, if_neg hm]
        exact sameOutcome_map _ _ _ (ih (i + 1))

/-! ## Last-character lemmas: the trimmed input always ends in a non-blank
line, so the no-valid-rows branch is unreachable -/

theorem dropWhile_head?_not {α : Type} (p : α → Bool) : ∀ (l : List α) (x : α),
    (l.dropWhile p).head? = some x → p x = false := by
  intro l
  induction l with
  | nil => intro x h; simp at h
  | cons a t ih =>
    intro x h
    by_cases hp : p a
    · rw [List.dropWhile_cons_of_pos hp] at h
      exact ih x h
    · rw [List.dropWhile_cons_of_neg hp] at h
      simp only [List.head?_cons, Option.some.injEq] at h
      subst h
      simpa using hp

theorem getLast?_mem' {α : Type} {l : List α} {x : α} (h : l.getLast? = some x) : x ∈ l := by
  cases l with
  | nil => simp at h
  | cons a t =>
    rw [List.getLast?_eq_getLast_of_ne_nil (by simp)] at h
    simp only [Option.some.injEq] at h
    rw [← h]
    exact List.getLast_mem _

theorem suffix_getLast? {α : Type} {s l : List α} (h : s <:+ l) (hne : s ≠ []) :
    l.getLast? = s.getLast? := by
  obtain ⟨t, rfl⟩ := h
  exact List.getLast?_append_of_ne_nil t hne

theorem trimL_getLast_not_ws : ∀ (l : List Char) (x : Char),
    (trimL l).getLast? = some x → wsB x = false := by
  intro l x h
  rw [trimL, List.getLast?_reverse] at h
  exact dropWhile_head?_not wsB _ x h

theorem trimL_getLast_of_ne_nil (l : List Char) (h : trimL l ≠ []) :
    ∃ x, (trimL l).getLast? = some x ∧ wsB x = false := by
  rw [List.getLast?_eq_getLast_of_ne_nil h]
  exact ⟨(trimL l).getLast h, rfl,
    trimL_getLast_not_ws l _ (List.getLast?_eq_getLast_of_ne_nil h)⟩

theorem trimL_ne_nil_of_getLast (l : List Char) (x : Char)
    (h : l.getLast? = some x) (hx : wsB x = false) : trimL l ≠ [] := by
  intro h0
  rw [trimL, List.reverse_eq_nil_iff, List.dropWhile_eq_nil_iff] at h0
  have hall : ∀ y ∈ l.dropWhile wsB, wsB y = true := by
    intro y hy
    exact h0 y (by simpa using hy)
  by_cases hd : l.dropWhile wsB = []
  · rw [List.dropWhile_eq_nil_iff] at hd
    exact absurd (hd x (getLast?_mem' h)) (by simp [hx])
  · have hlast : (l.dropWhile wsB).getLast? = some x := by
      rw [← suffix_getLast? (List.dropWhile_suffix wsB) hd]
      exact h
    exact absurd (hall x (getLast?_mem' hlast)) (by simp [hx])

theorem normNL_cons_of_ne (c : Char) (rest : List Char) (hc : c ≠ '\r') :
    normNL (c :: rest) = c :: normNL rest := by
  cases rest with
  | nil => simp only [normNL, if_neg hc]
  | cons c2 rest2 => simp only [normNL, if_neg hc]

theorem normNL_crlf (rest : List Char) : normNL ('\r' :: '\n' :: rest) = '\n' :: normNL rest := by
  simp [normNL]

theorem normNL_cr (c2 : Char) (rest : List Char) (hc2 : c2 ≠ '\n') :
    normNL ('\r' :: c2 :: rest) = '\n' :: normNL (c2 :: rest) := by
  simp [normNL, hc2]

theorem normNL_getLast : ∀ (l : List Char) (x : Char),
    l.getLast? = some x → wsB x = false → (normNL l).getLast? = some x := by
  intro l
  induction l with
  | nil => intro x h _; simp at h
  | cons c rest ih =>
    intro x h hx
    cases rest with
    | nil =>
      have hxc : c = x := by simpa using h
      subst hxc
      have hc : c ≠ '\r' := by
        intro h0
        rw [h0] at hx
        simp [wsB] at hx
      rw [normNL_cons_of_ne c [] hc]
      rfl
    | cons c2 rest2 =>
      rw [List.getLast?_cons_cons] at h
      have ihc2 := ih x h hx
      by_cases hc : c = '\r'
      · subst hc
        by_cases hc2 : c2 = '\n'
        · subst hc2
          rw [normNL_crlf]
          rw [normNL_cons_of_ne '\n' rest2 (by decide)] at ihc2
          exact ihc2
        · rw [normNL_cr c2 rest2 hc2]
          cases hq : normNL (c2 :: rest2) with
          | nil =>
            rw [hq] at ihc2
            simp at ihc2
          | cons y ys =>
            rw [hq] at ihc2
            rw [List.getLast?_cons_cons]
            exact ihc2
      · rw [normNL_cons_of_ne c _ hc]
        cases hq : normNL (c2 :: rest2) with
        | nil =>
          rw [hq] at ihc2
          simp at ihc2
        | cons y ys =>
          rw [hq] at ihc2
          rw [List.getLast?_cons_cons]
          exact ihc2

theorem splitChL_cons (sep c : Char) (rest : List Char) :
    splitChL sep (c :: rest) =
      if c = sep then [] :: splitChL sep rest
      else
        match splitChL sep rest with
        | [] => [[c]]
        | p :: ps => (c :: p) :: ps := rfl

theorem splitChL_last (sep : Char) : ∀ (l : List Char) (x : Char),
    l.getLast? = some x → x ≠ sep →
    ∃ ps p, splitChL sep l = ps ++ [p] ∧ p.getLast? = some x := by
  intro l
  induction l with
  | nil => intro x h; simp at h
  | cons c rest ih =>
    intro x h hx
    cases rest with
    | nil =>
      have hxc : c = x := by simpa using h
      subst hxc
      refine ⟨[], [c], ?_, rfl⟩
      rw [splitChL_cons, if_neg hx]
      rfl
    | cons c2 rest2 =>
      rw [List.getLast?_cons_cons] at h
      obtain ⟨ps, p, hsp, hlast⟩ := ih x h hx
      rw [splitChL_cons, hsp]
      by_cases hc : c = sep
      · rw [if_pos hc]
        exact ⟨[] :: ps, p, rfl, hlast⟩
      · rw [if_neg hc]
        cases ps with
        | nil =>
          simp only [List.nil_append]
          refine ⟨[], c :: p, rfl, ?_⟩
          cases p with
          | nil => simp at hlast
          | cons y ys => rw [List.getLast?_cons_cons]; exact hlast
        | cons q ps2 =>
          simp only [List.cons_append]
          exact ⟨(c :: q) :: ps2, p, rfl, hlast⟩


/-! ## Claim theorems -/

/-- C2: over one orchestration run on a non-empty parsed row list, exactly one
generation request is dispatched per row in ascending row order, exactly one
outcome (success or failure) is recorded per attempted row in ascending row
order regardless of which rows fail, and in the concrete 3-row scenario where
row 2 fails and rows 1 and 3 succeed, exactly 3 outcomes are produced in order
1,2,3 and the final summary reports 2 successes and 1 failure. -/
theorem batch_outcome_invariant (cfg : RunConfig) (rows : List Row)
    (oracle : Nat → Except String (Option String)) (hne : rows ≠ []) :
    requestsOf (runBatch cfg rows oracle) = rows.map (buildRequest cfg) ∧
    (outcomes (runBatch cfg rows oracle)).length = rows.length ∧
    (outcomes (runBatch cfg rows oracle)).map outcomeIndex = List.range' 1 rows.length ∧
    (∀ (k : Nat) (row : Row), rows.get? k = some row →
      (outcomes (runBatch cfg rows oracle)).get? k = some (outcomeOf cfg oracle k row)) ∧
    outcomes (runBatch cfgEx rowsEx oracleEx) =
      [Event.success 1 (buildRequest cfgEx [("a", "1")]) "img",
       Event.failure 2 "boom",
       Event.success 3 (buildRequest cfgEx [("a", "3")]) "img"] ∧
    summaryOf (runBatch cfgEx rowsEx oracleEx) = ⟨2, 1⟩ := by
  refine ⟨requestsOf_runLoop cfg oracle rows.length rows 0, ?_, ?_, ?_, by decide, by decide⟩
  · rw [runBatch, outcomes_runLoop, expectedOutcomes_length]
  · rw [runBatch, outcomes_runLoop, expectedOutcomes_indices]
  · intro k row hk
    rw [runBatch, outcomes_runLoop]
    have := expectedOutcomes_getQ cfg oracle rows 0 k row hk
    simpa using this

/-- Witness for C2 at the concrete three-row scenario. -/
theorem batch_outcome_invariant_witness :
    rowsEx ≠ [] ∧ (outcomes (runBatch cfgEx rowsEx oracleEx)).length = rowsEx.length :=
  ⟨by decide, (batch_outcome_invariant cfgEx rowsEx oracleEx (by decide)).2.1⟩

/-- C5: every request of one run carries the run configuration's credential;
the resolved client selection is the same for every row of the run, equal to
the dynamic client exactly when a non-blank override key is supplied and to
the process-level default client otherwise. -/
theorem run_credential_selection (cfg : RunConfig) (rows : List Row)
    (oracle : Nat → Except String (Option String)) :
    (∀ req ∈ requestsOf (runBatch cfg rows oracle), req.apiKey = cfg.apiKey) ∧
    ((requestsOf (runBatch cfg rows oracle)).map (fun r => resolveClient r.apiKey) =
      List.replicate rows.length (resolveClient cfg.apiKey)) ∧
    (trimS cfg.apiKey ≠ "" → resolveClient cfg.apiKey = .dynamic cfg.apiKey) ∧
    (trimS cfg.apiKey = "" → resolveClient cfg.apiKey = .global) := by
  have hreq : requestsOf (runBatch cfg rows oracle) = rows.map (buildRequest cfg) :=
    requestsOf_runLoop cfg oracle rows.length rows 0
  refine ⟨?_, ?_, ?_, ?_⟩
  · intro req hmem
    rw [hreq] at hmem
    obtain ⟨row, -, rfl⟩ := List.mem_map.mp hmem
    rfl
  · rw [hreq, List.map_map]
    have : (fun r => resolveClient r.apiKey) ∘ buildRequest cfg =
        fun _ => resolveClient cfg.apiKey := rfl
    rw [this, List.map_const']
  · intro h
    have hne : cfg.apiKey ≠ "" := by
      intro he
      rw [he] at h
      exact h rfl
    rw [resolveClient, if_pos ⟨hne, h⟩]
  · intro h
    rw [resolveClient, if_neg]
    rintro ⟨-, h2⟩
    exact h2 h

/-- Witness for C5 with a supplied override key. -/
theorem run_credential_selection_witness :
    trimS cfgKey.apiKey ≠ "" ∧ resolveClient cfgKey.apiKey = .dynamic cfgKey.apiKey :=
  ⟨by decide, (run_credential_selection cfgKey rowsEx oracleEx).2.2.1 (by decide)⟩

/-- C7: with a zero inter-request delay the run contains no pause; with a
positive delay the run contains exactly `n - 1` pauses of that duration, every
pause immediately follows a row outcome, and the run never ends in a pause
(no pause after the final row). -/
theorem run_delay_policy (cfg : RunConfig) (rows : List Row)
    (oracle : Nat → Except String (Option String)) :
    (cfg.delaySeconds = 0 → (runBatch cfg rows oracle).filter isPauseEv = []) ∧
    (0 < cfg.delaySeconds → (runBatch cfg rows oracle).filter isPauseEv =
      List.replicate (rows.length - 1) (Event.pause cfg.delaySeconds)) ∧
    pausesFollowOutcomes none (runBatch cfg rows oracle) = true ∧
    (rows ≠ [] → ∃ e, (runBatch cfg rows oracle).getLast? = some e ∧ isOutcomeEv e = true) := by
  have hp := pauses_runLoop cfg oracle rows.length rows 0 (by omega)
  refine ⟨?_, ?_, pausesFollowOutcomes_runLoop cfg oracle rows.length rows 0 none, ?_⟩
  · intro h0
    rw [runBatch, hp, if_neg]
    omega
  · intro hpos
    rw [runBatch, hp, if_pos hpos]
  · intro hne
    exact runLoop_getLast cfg oracle rows.length rows 0 (by omega) hne

/-- Witness for C7 with a two-second delay over two rows. -/
theorem run_delay_policy_witness :
    0 < cfgDelay.delaySeconds ∧
      (runBatch cfgDelay [[("a", "1")], [("a", "2")]] oracleEx).filter isPauseEv =
        List.replicate 1 (Event.pause 2) :=
  ⟨by decide, (run_delay_policy cfgDelay [[("a", "1")], [("a", "2")]] oracleEx).2.1 (by decide)⟩

/-- C8: the message surfaced for a failed row is exactly one of the invalid
credential message, the quota/billing message, the permission message, the
content-safety message, the invalid-reference-image message, the raw message
itself when shorter than 250 characters, or the generic message; a raw message
containing an API-key-invalid indicator always yields the credential message;
and a failing row still leaves one outcome per row, with the translated
message recorded as that row's failure outcome while the batch proceeds. -/
theorem flow_error_taxonomy (raw : String) :
    (translateError raw = invalidKeyMsg ∨ translateError raw = quotaMsg ∨
      translateError raw = permissionMsg ∨ translateError raw = safetyMsg ∨
      translateError raw = refImageMsg ∨
      (raw.length < 250 ∧ translateError raw = raw) ∨
      translateError raw = genericMsg) ∧
    ((hasSub raw "API key not valid" || hasSub raw "API_KEY_INVALID") = true →
      translateError raw = invalidKeyMsg) ∧
    (∀ (cfg : RunConfig) (rows : List Row) (oracle : Nat → Except String (Option String)),
      (outcomes (runBatch cfg rows oracle)).length = rows.length) ∧
    (∀ (cfg : RunConfig) (rows : List Row) (oracle : Nat → Except String (Option String))
      (k : Nat) (row : Row), rows.get? k = some row → oracle k = .error raw →
      (outcomes (runBatch cfg rows oracle)).get? k =
        some (Event.failure (k + 1) (translateError raw))) := by
  refine ⟨?_, ?_, ?_, ?_⟩
  · unfold translateError
    split_ifs with h0 h1 h2 h3 h4 h5 h6
    · right; right; right; right; right; right; rfl
    · left; rfl
    · right; left; rfl
    · right; right; left; rfl
    · right; right; right; left; rfl
    · right; right; right; right; left; rfl
    · right; right; right; right; right; left; exact ⟨h6, rfl⟩
    · right; right; right; right; right; right; rfl
  · intro h
    unfold translateError
    split_ifs with h0 h1 <;> try rfl
    rw [h0] at h
    exact absurd h (by decide)
  · intro cfg rows oracle
    rw [runBatch, outcomes_runLoop, expectedOutcomes_length]
  · intro cfg rows oracle k row hk horacle
    rw [runBatch, outcomes_runLoop]
    have hq := expectedOutcomes_getQ cfg oracle rows 0 k row hk
    rw [Nat.zero_add] at hq
    rw [hq]
    unfold outcomeOf selectAiModelM
    rw [horacle]

/-- Witness for C8 on a raw message carrying the API-key-invalid indicator. -/
theorem flow_error_taxonomy_witness :
    (hasSub "x API_KEY_INVALID y" "API key not valid" ||
      hasSub "x API_KEY_INVALID y" "API_KEY_INVALID") = true ∧
    translateError "x API_KEY_INVALID y" = invalidKeyMsg :=
  ⟨by decide, (flow_error_taxonomy "x API_KEY_INVALID y").2.1 (by decide)⟩

/-- C10: a successful parse always returns a non-empty row list, so the
orchestrator's zero-rows-after-successful-parse branch is unreachable. -/
theorem parse_ok_rows_nonempty (text : String) (d : Delim) (rows : List Row)
    (h : parseDelimitedText text d = .ok rows) :
    rows ≠ [] ∧ submitParse text d ≠ .noRows := by
  have hne : rows ≠ [] := by
    unfold parseDelimitedText at h
    split_ifs at h with h1 h2 h3 h4 h5
    all_goals try exact Except.noConfusion h
    · have hL : 2 ≤ (parseLines text).length := by
        by_cases hT : trimS ((parseLines text).headD "") = ""
        · have h31 : (parseLines text).length ≠ 1 := fun hl => h3 ⟨hl, hT⟩
          omega
        · have h42 : ¬((parseLines text).length < 2) := fun hl => h4 ⟨hl, hT⟩
          omega
      cases hloop : rowsLoopD d (headersOf d ((parseLines text).headD ""))
          ((parseLines text).drop 1) 1 with
      | error e =>
        rw [hloop] at h
        simp only [finishParse] at h
        exact Except.noConfusion h
      | ok data =>
        rw [hloop] at h
        simp only [finishParse] at h
        split_ifs at h with h6
        have hdata : data ≠ [] := by
          intro h0
          exact h6 ⟨by simp [h0], by omega⟩
        have heq : data = rows := by simpa using h
        rw [← heq]
        exact hdata
  refine ⟨hne, ?_⟩
  unfold submitParse
  rw [h]
  have : rows.length ≠ 0 := fun h0 => hne (List.length_eq_zero.mp h0)
  simp [this]

/-- C4 counterexample: on the input `"\na,b\n1,2,3"` the offending line
`"1,2,3"` is line 3 (1-indexed) of the raw input, because the input starts
with a blank line that trimming removes, yet the reported message cites
Row 2: the parser numbers lines within the trimmed content, not the raw
input. -/
theorem parse_mismatch_lineNumber_cex :
    parseDelimitedText "\na,b\n1,2,3" Delim.comma =
      .error (mismatchMsgD Delim.comma 2 3 2) ∧
    (splitCh '\n' "\na,b\n1,2,3").get? 2 = some "1,2,3" ∧
    (splitCh '\n' "\na,b\n1,2,3").get? 1 = some "a,b" ∧
    ((splitCh ',' "a,b").map trimS).length = 2 ∧
    mismatchMsgD Delim.comma 2 3 2 ≠ mismatchMsgD Delim.comma 3 3 2 := by decide

/-- C4 (amended: the reported line number is 1-indexed within the trimmed,
newline-normalized content, and the error cites the first offending line):
when the input passes the earlier validations and data line `j` (0-based
among the data lines) is the first non-blank line whose field count differs
from the header's, the parse fails with the mismatch message reporting line
number `j + 2` — the offending line's 1-indexed position in the trimmed
content — together with the observed and expected field counts. -/
theorem parse_mismatch_first_bad (text : String) (d : Delim) (hline : String)
    (dls : List String) (j : Nat) (lj : String)
    (hsplit : parseLines text = hline :: dls)
    (hhead : ∀ h ∈ headersOf d hline, h ≠ "")
    (hj : dls.get? j = some lj)
    (hjne : trimS lj ≠ "")
    (hjbad : ((splitCh d.ch lj).map trimS).length ≠ (headersOf d hline).length)
    (hfirst : ∀ k, k < j → ∀ lk, dls.get? k = some lk →
      trimS lk = "" ∨ ((splitCh d.ch lk).map trimS).length = (headersOf d hline).length) :
    parseDelimitedText text d =
      .error (mismatchMsgD d (j + 2) ((splitCh d.ch lj).map trimS).length
        (headersOf d hline).length) ∧
    (parseLines text).get? (j + 1) = some lj := by
  have hdls : dls ≠ [] := by
    intro h0
    rw [h0] at hj
    simp at hj
  have htrim : trimS text ≠ "" := by
    intro h0
    rw [parseLines, h0] at hsplit
    have : splitCh '\n' (normNLs "") = [""] := by decide
    rw [this] at hsplit
    cases hsplit
    exact hdls rfl
  have hdlen : dls.length ≠ 0 := fun h0 => hdls (List.length_eq_zero.mp h0)
  constructor
  · unfold parseDelimitedText
    rw [if_neg htrim, hsplit]
    rw [if_neg (by simp only [List.length_cons]; omega)]
    rw [if_neg (by rintro ⟨h1, -⟩; simp only [List.length_cons] at h1; omega)]
    rw [if_neg (by rintro ⟨h1, -⟩; simp only [List.length_cons] at h1; omega)]
    simp only [List.headD_cons, List.drop_succ_cons, List.drop_zero]
    rw [if_neg (by
      intro hc
      rw [List.any_eq_true] at hc
      obtain ⟨hh, hmem, hcv⟩ := hc
      exact hhead hh hmem (by simpa using hcv))]
    rw [rowsLoopD_first_bad d (headersOf d hline) dls 1 j lj hj hjne hjbad hfirst]
    have harith : 1 + j + 1 = j + 2 := by omega
    rw [harith]
    rfl
  · rw [hsplit, List.get?_cons_succ]
    exact hj

/-- Witness for C4 on the input `"a,b\n1,2,3"`, whose single data line has 3
fields against a 2-field header. -/
theorem parse_mismatch_first_bad_witness :
    parseDelimitedText "a,b\n1,2,3" Delim.comma =
      .error (mismatchMsgD Delim.comma (0 + 2)
        ((splitCh Delim.comma.ch "1,2,3").map trimS).length
        (headersOf Delim.comma "a,b").length) ∧
    mismatchMsgD Delim.comma 2 3 2 =
      "Row 2 (1-indexed) has 3 columns, but header has 2. Please ensure consistent column counts in your CSV file." :=
  ⟨(parse_mismatch_first_bad "a,b\n1,2,3" Delim.comma "a,b" ["1,2,3"] 0 "1,2,3"
      (by decide) (by decide) (by decide) (by decide) (by decide)
      (fun k hk => absurd hk (Nat.not_lt_zero k))).1,
    by decide⟩

/-- C3 counterexample: the input `"a,b\n   \n"` has a valid header and only a
blank line after it, yet `parseDelimitedText` fails with the
missing-data-rows error, not the no-valid-rows error the claim names:
trimming happens before splitting, so trailing blank lines are removed and
the input reduces to a header-only line list. -/
theorem parse_blank_rows_cex :
    parseDelimitedText "a,b\n   \n" Delim.comma = .error missingDataRowsMsgD ∧
    missingDataRowsMsgD ≠ noValidRowsMsgD Delim.comma ∧
    missingDataRowsMsgD = "Input data must have at least one data row after the header." ∧
    noValidRowsMsgD Delim.comma =
      "No valid data rows found after parsing headers in your CSV file." ∧
    headersOf Delim.comma "a,b" = ["a", "b"] := by decide

/-- C3 (amended: such input fails with MissingDataRows, not NoValidRows):
when the trimmed content has a valid header (no empty trimmed field) and
every subsequent line is blank, the subsequent line list is necessarily
empty — the initial trim removes trailing blank lines — and the parse fails
with the MissingDataRows error, so such input never reaches the
orchestrator. -/
theorem parse_blank_after_header (text : String) (d : Delim) (hline : String)
    (dls : List String)
    (hsplit : parseLines text = hline :: dls)
    (hhead : ∀ h ∈ headersOf d hline, h ≠ "")
    (hblank : ∀ l ∈ dls, trimS l = "") :
    parseDelimitedText text d = .error missingDataRowsMsgD ∧ dls = [] := by
  have htrim : trimS text ≠ "" := by
    intro h0
    rw [parseLines, h0] at hsplit
    have he : splitCh '\n' (normNLs "") = [""] := by decide
    rw [he] at hsplit
    cases hsplit
    have hm : headersOf d "" = [""] := rfl
    exact hhead "" (hm ▸ List.mem_singleton.mpr rfl) rfl
  have hT : trimL text.data ≠ [] := by
    intro h0
    apply htrim
    show String.mk (trimL text.data) = ""
    rw [h0]
  obtain ⟨x, hxl, hxw⟩ := trimL_getLast_of_ne_nil text.data hT
  have hxn : (normNL (trimL text.data)).getLast? = some x := normNL_getLast _ x hxl hxw
  have hxs : x ≠ '\n' := by
    intro h0
    rw [h0] at hxw
    simp [wsB] at hxw
  obtain ⟨ps, p, hps, hpl⟩ := splitChL_last '\n' (normNL (trimL text.data)) x hxn hxs
  have hplines : parseLines text = ps.map String.mk ++ [String.mk p] := by
    rw [parseLines, splitCh]
    have hdata : (normNLs (trimS text)).data = normNL (trimL text.data) := rfl
    rw [hdata, hps, List.map_append]
    rfl
  have hdls : dls = [] := by
    by_contra hne
    have h1 : (hline :: dls).getLast? = some (String.mk p) := by
      rw [← hsplit, hplines]
      exact List.getLast?_concat _
    have h2 : dls.getLast? = some (String.mk p) := by
      cases dls with
      | nil => exact absurd rfl hne
      | cons a t => rw [List.getLast?_cons_cons] at h1; exact h1
    have h4 : trimS (String.mk p) = "" := hblank _ (getLast?_mem' h2)
    have h5 : trimL p = [] := by simpa [trimS] using congrArg String.data h4
    exact trimL_ne_nil_of_getLast p x hpl hxw h5
  subst hdls
  have hhl : hline = String.mk p := by
    have heq : ps.map String.mk ++ [String.mk p] = [hline] := by
      rw [← hplines, hsplit]
    cases hpm : ps.map String.mk with
    | nil =>
      rw [hpm] at heq
      simpa using heq.symm
    | cons a t =>
      rw [hpm] at heq
      simp at heq
  have hhltrim : trimS hline ≠ "" := by
    rw [hhl]
    intro h0
    have h5 : trimL p = [] := by simpa [trimS] using congrArg String.data h0
    exact trimL_ne_nil_of_getLast p x hpl hxw h5
  refine ⟨?_, rfl⟩
  unfold parseDelimitedText
  rw [if_neg htrim, hsplit]
  simp only [List.headD_cons, List.length_cons, List.length_nil]
  rw [if_neg (by omega)]
  rw [if_neg (by rintro ⟨-, h2⟩; exact hhltrim h2)]
  rw [if_pos ⟨by omega, hhltrim⟩]

/-- Witness for C3 on the header-plus-blank-line input `"a,b\n   \n"`. -/
theorem parse_blank_after_header_witness :
    parseLines "a,b\n   \n" = ["a,b"] ∧
    parseDelimitedText "a,b\n   \n" Delim.comma = .error missingDataRowsMsgD :=
  ⟨by decide,
    (parse_blank_after_header "a,b\n   \n" Delim.comma "a,b" [] (by decide) (by decide)
      (by simp)).1⟩

/-- C6: prompt synthesis renders, for each column in row order, the bullet
line `- **<HumanizedName>**: <value>`, joins the lines with newlines, and
returns the trimmed concatenation of start template, block, and end template;
the humanized name uppercases exactly the word characters not preceded by a
word character after underscores become spaces (the first letter of each
word); a zero-column row yields an empty block, and for the row
`{"Video_Title": "X"}` the result is the trimmed start template, the line
`- **Video Title**: X`, and the end template. -/
theorem synthesize_prompt_spec (s e : String) (row : Row) :
    synthesizePrompt s row e = trimS (s ++ "\n" ++ joinNL (row.map bulletLine) ++ "\n" ++ e) ∧
    (∀ k v : String, bulletLine (k, v) = "- **" ++ humanizeKey k ++ "**: " ++ v) ∧
    (∀ k : String, humanizeKey k =
      String.mk (((underscoreToSpace k.data).zip
        (' ' :: underscoreToSpace k.data)).map capPair)) ∧
    formatRowData [] = "" ∧
    humanizeKey "Video_Title" = "Video Title" ∧
    synthesizePrompt s [("Video_Title", "X")] e =
      trimS (s ++ "\n" ++ "- **Video Title**: X" ++ "\n" ++ e) := by
  refine ⟨rfl, fun k v => rfl, ?_, rfl, by decide, ?_⟩
  · intro k
    unfold humanizeKey
    have hws : (false : Bool) = wordCharB ' ' := rfl
    rw [hws, capWordStarts_zip]
  · unfold synthesizePrompt
    have hf : formatRowData [("Video_Title", "X")] = "- **Video Title**: X" := by decide
    rw [hf]

/-- C9: the legacy comma-only parser and the generalized parser at the comma
delimiter are equivalent up to error-message wording: they fail on exactly
the same inputs, and whenever both succeed they return identical row lists. -/
theorem parseCsv_equiv_parseDelimitedText (text : String) :
    sameOutcome (parseCsv text) (parseDelimitedText text Delim.comma) ∧
    ((∃ e, parseCsv text = .error e) ↔
      (∃ e, parseDelimitedText text Delim.comma = .error e)) ∧
    (∀ rows rows2, parseCsv text = .ok rows →
      parseDelimitedText text Delim.comma = .ok rows2 → rows = rows2) := by
  have hmain : sameOutcome (parseCsv text) (parseDelimitedText text Delim.comma) := by
    unfold parseCsv parseDelimitedText
    by_cases h1 : trimS text = ""
    · rw [if_pos h1, if_pos h1]; trivial
    rw [if_neg h1, if_neg h1]
    by_cases h2 : (parseLines text).length < 1
    · rw [if_pos h2, if_pos h2]; trivial
    rw [if_neg h2, if_neg h2]
    by_cases h3 : (parseLines text).length = 1 ∧ trimS ((parseLines text).headD "") = ""
    · rw [if_pos h3, if_pos h3]; trivial
    rw [if_neg h3, if_neg h3]
    by_cases h4 : (parseLines text).length < 2 ∧ trimS ((parseLines text).headD "") ≠ ""
    · rw [if_pos h4, if_pos h4]; trivial
    rw [if_neg h4, if_neg h4]
    have hhd : headersOf Delim.comma ((parseLines text).headD "") =
        (splitCh ',' ((parseLines text).headD "")).map trimS := rfl
    rw [hhd]
    by_cases h5 : ((splitCh ',' ((parseLines text).headD "")).map trimS).any (fun h => h == "")
    · rw [if_pos h5, if_pos h5]; trivial
    rw [if_neg h5, if_neg h5]
    exact sameOutcome_finishParse _ _ _ _ _
      (rowsLoop_equiv ((splitCh ',' ((parseLines text).headD "")).map trimS)
        ((parseLines text).drop 1) 1)
  refine ⟨hmain, ?_, ?_⟩
  · constructor
    · rintro ⟨e, he⟩
      rw [he] at hmain
      cases hq : parseDelimitedText text Delim.comma with
      | error e2 => exact ⟨e2, rfl⟩
      | ok y => rw [hq] at hmain; exact absurd hmain (by simp [sameOutcome])
    · rintro ⟨e, he⟩
      rw [he] at hmain
      cases hq : parseCsv text with
      | error e2 => exact ⟨e2, rfl⟩
      | ok y => rw [hq] at hmain; exact absurd hmain (by simp [sameOutcome])
  · intro rows rows2 hc hd
    rw [hc, hd] at hmain
    exact hmain

/-- Witness for C9 on an input both parsers accept. -/
theorem parseCsv_equiv_parseDelimitedText_witness :
    parseCsv "a,b\n1,2" = .ok [[("a", "1"), ("b", "2")]] ∧
    parseDelimitedText "a,b\n1,2" Delim.comma = .ok [[("a", "1"), ("b", "2")]] ∧
    ([[("a", "1"), ("b", "2")]] : List Row) = [[("a", "1"), ("b", "2")]] :=
  ⟨by decide, by decide,
    (parseCsv_equiv_parseDelimitedText "a,b\n1,2").2.2 _ _ (by decide) (by decide)⟩

/-- Witness for C10 on a successfully parsed input. -/
theorem parse_ok_rows_nonempty_witness :
    parseDelimitedText "a,b\n1,2" Delim.comma = .ok [[("a", "1"), ("b", "2")]] ∧
    [[("a", "1"), ("b", "2")]] ≠ ([] : List Row) :=
  ⟨by decide,
    (parse_ok_rows_nonempty "a,b\n1,2" Delim.comma [[("a", "1"), ("b", "2")]] (by decide)).1⟩

end ImageForge
